import Mathlib

/-!
# Voice assistant front end (`src/frontend/app.jsx`)

A shallow embedding of the streaming client: the playback scheduler
(`playAudio`), the inbound frame handler (`socket.onmessage`) and the outbound
recorder callback (`rec.ondataavailable`).

Modelling conventions.

* Times (the audio clock `audioContext.currentTime`, `scheduledEndRef.current`,
  buffer durations) are exact nonnegative rationals in seconds; the rounding of
  JavaScript doubles is not modelled.
* A React ref or state cell is a field of `State`; `null` is `none`.
* Calls into the platform that the properties speak about (`decode`,
  `source.start`, `setText`) are recorded in call logs carried by `State`.
* A thrown exception (a rejected promise of the `async` handler) is reported in
  the `threw` field of an `Outcome`, next to the state reached when it was
  thrown.
* `onmessage` is the handler run from start to finish. `step` splits it at its
  two `await`s, so that invocations for different messages can interleave.
* In doc comments `scheduledEnd` stands for the value of
  `scheduledEndRef.current`.
-/

namespace VoiceAssistant

/-! ## Data model -/

/-- Raw bytes of a binary message or payload (an `ArrayBuffer`). -/
abbrev Bytes := List UInt8

/-- One channel of PCM samples (a `Float32Array`). -/
abbrev Float32Array := List ℚ

/-- Audio-clock time in seconds. -/
abbrev Time := ℚ≥0

/-- Exceptions that the modelled code paths can raise. -/
inductive JsError
  | typeError
  | notSupportedError
  | invalidStateError
  | rejected (reason : String)
  deriving DecidableEq, Repr

/-- The object a decode promise resolves to: line 77 reads the fields
`channelData` and `samplesDecoded`. -/
structure DecodeResult where
  channelData : List Float32Array
  samplesDecoded : Nat
  deriving DecidableEq

/-- The Ogg Opus decoder as a black box: given the payloads of all earlier
`decode` calls and the payload of this call, the promise either resolves to a
`DecodeResult` or rejects. -/
abbrev Decoder := List Bytes → Bytes → Except JsError DecodeResult

/-- One `source.start(startTime)` call together with the samples of its buffer. -/
structure Started where
  startTime : Time
  audioData : Float32Array
  deriving DecidableEq

/-- The mutable cells of `App` read or written on the inbound path, and the
call logs. -/
structure State where
  /-- The cell `scheduledEndRef.current` (line 17: initially `null`). -/
  scheduledEndRef : Option Time
  /-- The cell `text` (line 13: initially the empty string). -/
  text : String
  /-- The cell `decoderRef.current` (line 16: `null` until `init` finishes). -/
  decoderRef : Option Decoder
  /-- Payloads passed to `decoderRef.current.decode`, oldest first. -/
  decodeCalls : List Bytes
  /-- The arguments of the `playAudio` calls, oldest first (`none` for
  `undefined`). -/
  playAudioCalls : List (Option Float32Array)
  /-- The `source.start` calls, oldest first. -/
  started : List Started
  /-- The strings appended by `setText` calls, oldest first. -/
  textUpdates : List String

/-- The state right after `App` is first rendered (lines 13-17). -/
def State.initial : State :=
  { scheduledEndRef := none, text := "", decoderRef := none,
    decodeCalls := [], playAudioCalls := [], started := [], textUpdates := [] }

/-- What a handler invocation leaves behind: the state, and the exception it
threw, if any. -/
structure Outcome where
  state : State
  threw : Option JsError

/-- Platform services the handler calls whose behaviour is fixed outside the
repository. -/
structure Platform where
  /-- Expression `new TextDecoder().decode(payload)`. -/
  textDecode : Bytes → String

/-! ## Playback scheduler -/

/-- The sample rate of `audioContext` (line 12). -/
def sampleRate : ℕ := 48000

/-- JavaScript `ToNumber` on the timeline cell: `Math.max` reads `null` as 0. -/
def toNumber : Option Time → Time
  | none => 0
  | some t => t

/-- The field `buffer.duration` of a buffer created with `audioData.length`
frames at `audioContext.sampleRate`. -/
def bufferDuration (audioData : Float32Array) : Time :=
  (audioData.length : ℚ≥0) / (sampleRate : ℚ≥0)

/-- The local `startTime` of `playAudio` (line 60):
`Math.max(scheduledEndRef.current, audioContext.currentTime)`. -/
def startTimeOf (s : State) (now : Time) : Time :=
  max (toNumber s.scheduledEndRef) now

/-- Function `playAudio` (lines 52-63), called with the audio clock reading
`now`. The argument is `none` when the caller passed `undefined`, in which case
`audioData.length` throws; `createBuffer` rejects a length of 0. Both throws
happen before any cell is written. -/
def playAudio (s : State) (now : Time) (audioData : Option Float32Array) : Outcome :=
  let s1 := { s with playAudioCalls := s.playAudioCalls ++ [audioData] }
  match audioData with
  | none => { state := s1, threw := some .typeError }
  | some a =>
    if a.length = 0 then { state := s1, threw := some .notSupportedError }
    else
      let startTime := startTimeOf s now
      { state := { s1 with
          started := s.started ++ [{ startTime := startTime, audioData := a }],
          scheduledEndRef := some (startTime + bufferDuration a) },
        threw := none }

/-- A decoded chunk handed to `playAudio`, with the audio clock reading at that
call. -/
structure Chunk where
  audioData : Float32Array
  now : Time

/-- Successive `playAudio` calls, one per chunk, in order. Each call belongs to
a handler invocation of its own, so a throwing call does not stop later ones. -/
def playAll (s : State) (chunks : List Chunk) : State :=
  chunks.foldl (fun st c => (playAudio st c.now (some c.audioData)).state) s

/-! ## Inbound frame handler -/

/-- Where the handler stands after the synchronous code that follows the byte
read (lines 73-82): finished, or suspended on the decode promise. -/
inductive AfterRead
  | done (o : Outcome)
  | awaitDecode (s : State) (result : Except JsError DecodeResult)

/-- Lines 73-82 up to the `await` of line 77. `data` is the content of the
`ArrayBuffer`; `data.head?` is `new Uint8Array(buffer)[0]` (`undefined` on an
empty buffer) and `data.drop 1` is `buffer.slice(1)`. With `decoderRef.current`
still `null`, the member access `.decode` throws. -/
def afterRead (p : Platform) (s : State) (data : Bytes) : AfterRead :=
  let tag := data.head?
  let payload := data.drop 1
  if tag = some 1 then
    match s.decoderRef with
    | none => .done { state := s, threw := some .typeError }
    | some decoder =>
      .awaitDecode { s with decodeCalls := s.decodeCalls ++ [payload] }
        (decoder s.decodeCalls payload)
  else if tag = some 2 then
    let newText := p.textDecode payload
    .done { state := { s with text := s.text ++ newText,
                              textUpdates := s.textUpdates ++ [newText] },
            threw := none }
  else
    .done { state := s, threw := none }

/-- Lines 77-78 once the decode promise has settled: a rejection is rethrown by
`await`; otherwise `playAudio(channelData[0])` runs when `samplesDecoded > 0`. -/
def afterDecode (s : State) (now : Time) (result : Except JsError DecodeResult) : Outcome :=
  match result with
  | .error e => { state := s, threw := some e }
  | .ok r =>
    if r.samplesDecoded > 0 then playAudio s now r.channelData.head?
    else { state := s, threw := none }

/-- The handler `socket.onmessage` (lines 71-83) run from start to finish on a
binary message holding `data`, with `now` the audio clock reading when (and if)
`playAudio` is reached. -/
def onmessage (p : Platform) (s : State) (now : Time) (data : Bytes) : Outcome :=
  match afterRead p s data with
  | .done o => o
  | .awaitDecode s1 result => afterDecode s1 now result

/-- An inbound message with the audio clock reading used by its handler. -/
structure Inbound where
  data : Bytes
  now : Time

/-- The handler run to completion on each message in turn. -/
def runMessages (p : Platform) (s : State) (msgs : List Inbound) : State :=
  msgs.foldl (fun st m => (onmessage p st m.now m.data).state) s

/-- The effect `decoderRef.current = decoder` of `init` (line 46). -/
def decoderReady (s : State) (decoder : Decoder) : State :=
  { s with decoderRef := some decoder }

/-! ## Handlers suspended at an `await` -/

/-- A handler invocation that has not finished, by the `await` it is
suspended at. -/
inductive Pending
  /-- Suspended at `await event.data.arrayBuffer()` (line 72); `data` is what
  the promise will resolve to. -/
  | reading (data : Bytes)
  /-- Suspended at `await decoderRef.current.decode(...)` (line 77); `result`
  is how the promise will settle. -/
  | decoding (result : Except JsError DecodeResult)

/-- The shared cells together with the handler invocations made so far, in
arrival order (`none` once an invocation has finished), and the exceptions
thrown by finished invocations. -/
structure System where
  state : State
  handlers : List (Option Pending)
  rejections : List JsError

/-- No message has arrived yet. -/
def System.idle (s : State) : System :=
  { state := s, handlers := [], rejections := [] }

/-- What the event loop can run next on the inbound path. -/
inductive Event
  /-- A message event is dispatched: `socket.onmessage` is invoked and runs
  up to its first `await`. -/
  | message (data : Bytes)
  /-- The promise awaited by the invocation for message number `i` settles and
  the invocation runs up to its next `await` or to its end; `now` is the audio
  clock reading during that run. -/
  | resume (i : Nat) (now : Time)

/-- One turn of the event loop. A handler invocation runs without interruption
between two of its `await`s; nothing makes an invocation wait for the
invocations of earlier messages. -/
def step (p : Platform) (sys : System) : Event → System
  | .message data => { sys with handlers := sys.handlers ++ [some (.reading data)] }
  | .resume i now =>
    match sys.handlers[i]? with
    | some (some (.reading data)) =>
      match afterRead p sys.state data with
      | .done o =>
        { state := o.state, handlers := sys.handlers.set i none,
          rejections := sys.rejections ++ o.threw.toList }
      | .awaitDecode s1 result =>
        { sys with state := s1, handlers := sys.handlers.set i (some (.decoding result)) }
    | some (some (.decoding result)) =>
      let o := afterDecode sys.state now result
      { state := o.state, handlers := sys.handlers.set i none,
        rejections := sys.rejections ++ o.threw.toList }
    | _ => sys

/-- The event loop run over a schedule. -/
def run (p : Platform) (sys : System) (events : List Event) : System :=
  events.foldl (step p) sys

/-- The schedule in which every message is handled to completion before the
next one is dispatched; `k` is the number of the first message. -/
def serialSchedule : Nat → List Inbound → List Event
  | _, [] => []
  | k, m :: ms =>
    .message m.data :: .resume k m.now :: .resume k m.now :: serialSchedule (k + 1) ms

/-! ## Text decoding and a stand-in audio decoder -/

/-- The variables of the UTF-8 decoder of the Encoding standard. -/
structure Utf8State where
  codePoint : Nat
  bytesSeen : Nat
  bytesNeeded : Nat
  lower : Nat
  upper : Nat

/-- The decoder between two characters. -/
def Utf8State.start : Utf8State :=
  { codePoint := 0, bytesSeen := 0, bytesNeeded := 0, lower := 0x80, upper := 0xBF }

/-- The character U+FFFD emitted for malformed input. -/
def replacementChar : Char := Char.ofNat 0xFFFD

/-- The UTF-8 decoder on a byte met with `bytesNeeded = 0`. -/
def utf8Lead (b : Nat) : List Char × Utf8State :=
  if b ≤ 0x7F then ([Char.ofNat b], .start)
  else if 0xC2 ≤ b ∧ b ≤ 0xDF then
    ([], { Utf8State.start with bytesNeeded := 1, codePoint := b % 0x20 })
  else if 0xE0 ≤ b ∧ b ≤ 0xEF then
    ([], { codePoint := b % 0x10, bytesSeen := 0, bytesNeeded := 2,
           lower := if b = 0xE0 then 0xA0 else 0x80,
           upper := if b = 0xED then 0x9F else 0xBF })
  else if 0xF0 ≤ b ∧ b ≤ 0xF4 then
    ([], { codePoint := b % 0x08, bytesSeen := 0, bytesNeeded := 3,
           lower := if b = 0xF0 then 0x90 else 0x80,
           upper := if b = 0xF4 then 0x8F else 0xBF })
  else ([replacementChar], .start)

/-- The UTF-8 decoder on one byte: the characters emitted and the next state.
A byte outside the expected continuation range ends the pending sequence with
U+FFFD and is then read again as a leading byte. -/
def utf8Step (st : Utf8State) (b : Nat) : List Char × Utf8State :=
  if st.bytesNeeded = 0 then utf8Lead b
  else if b < st.lower ∨ st.upper < b then
    (replacementChar :: (utf8Lead b).1, (utf8Lead b).2)
  else
    let cp := st.codePoint * 64 + b % 64
    if st.bytesSeen + 1 = st.bytesNeeded then ([Char.ofNat cp], .start)
    else ([], { codePoint := cp, bytesSeen := st.bytesSeen + 1,
                bytesNeeded := st.bytesNeeded, lower := 0x80, upper := 0xBF })

/-- The UTF-8 decoder over a whole input; a sequence cut short by the end of
the input yields U+FFFD. -/
def utf8Run : Utf8State → Bytes → List Char
  | st, [] => if st.bytesNeeded = 0 then [] else [replacementChar]
  | st, b :: bs => (utf8Step st b.toNat).1 ++ utf8Run (utf8Step st b.toNat).2 bs

/-- Expression `new TextDecoder().decode(bytes)`: UTF-8, malformed input
replaced, a leading byte order mark dropped. -/
def utf8Decode (bytes : Bytes) : String :=
  match utf8Run .start bytes with
  | [] => ""
  | c :: cs => if c = Char.ofNat 0xFEFF then String.mk cs else String.mk (c :: cs)

/-- The browser platform. -/
def browser : Platform := { textDecode := utf8Decode }

/-- A stand-in for the audio decoder in concrete runs: every payload byte
becomes one sample. -/
def byteDecoder : Decoder := fun _ payload =>
  .ok { channelData := [payload.map (fun b => (b.toNat : ℚ))],
        samplesDecoded := payload.length }

/-! ## Outbound recorder callback -/

/-- The values of `WebSocket.readyState`. -/
inductive ReadyState
  | CONNECTING
  | OPEN
  | CLOSING
  | CLOSED
  deriving DecidableEq, Repr

/-- The socket as seen by the recorder callback. -/
structure WebSocket where
  readyState : ReadyState
  deriving DecidableEq

/-- What one `rec.ondataavailable` invocation did: the arguments of its
`send` calls and the exception it threw, if any. -/
structure SendOutcome where
  sendCalls : List Bytes
  threw : Option JsError
  deriving DecidableEq

/-- Method `WebSocket.send`: it throws while the socket is still connecting. -/
def WebSocket.send (ws : WebSocket) : Option JsError :=
  if ws.readyState = .CONNECTING then some .invalidStateError else none

/-- Callback `rec.ondataavailable` (lines 32-36). `socketRef` is
`socketRef.current`; with `null` the optional chain yields `undefined`, which
is not `WebSocket.OPEN`. -/
def ondataavailable (socketRef : Option WebSocket) (data : Bytes) : SendOutcome :=
  match socketRef with
  | none => { sendCalls := [], threw := none }
  | some ws =>
    if ws.readyState = .OPEN then { sendCalls := [data], threw := ws.send }
    else { sendCalls := [], threw := none }

/-! ## Sample data for concrete runs -/

/-- A chunk of `n` samples of silence. -/
def silence (n : Nat) : Float32Array := List.replicate n 0

/-- A chunk of 24000 samples (0.5 s at 48 kHz) scheduled at clock reading 0,
then one of 14400 samples (0.3 s) scheduled at clock reading 1/4. -/
def scenarioChunks : List Chunk :=
  [{ audioData := silence 24000, now := 0 },
   { audioData := silence 14400, now := 1 / 4 }]

/-- The text messages `[2, "Hi "]` and `[2, "there"]`. -/
def hiThere : List Inbound :=
  [{ data := [2, 72, 105, 32], now := 0 },
   { data := [2, 116, 104, 101, 114, 101], now := 0 }]

/-- The initial state once the stand-in decoder has finished initialising. -/
def readyState : State := decoderReady State.initial byteDecoder

/-! ## Lemmas on the scheduler -/

@[simp] theorem toNumber_none : toNumber none = 0 := rfl

@[simp] theorem toNumber_some (t : Time) : toNumber (some t) = t := rfl

theorem playAudio_started (s : State) (now : Time) (a : Float32Array) (h : a ≠ []) :
    (playAudio s now (some a)).state.started
      = s.started ++ [{ startTime := startTimeOf s now, audioData := a }] := by
  have hlen : a.length ≠ 0 := fun h0 => h (List.length_eq_zero.mp h0)
  simp [playAudio, hlen]

theorem playAudio_scheduledEnd (s : State) (now : Time) (a : Float32Array) (h : a ≠ []) :
    (playAudio s now (some a)).state.scheduledEndRef
      = some (startTimeOf s now + bufferDuration a) := by
  have hlen : a.length ≠ 0 := fun h0 => h (List.length_eq_zero.mp h0)
  simp [playAudio, hlen]

theorem playAudio_threw (s : State) (now : Time) (a : Float32Array) (h : a ≠ []) :
    (playAudio s now (some a)).threw = none := by
  have hlen : a.length ≠ 0 := fun h0 => h (List.length_eq_zero.mp h0)
  simp [playAudio, hlen]

theorem playAudio_started_extends (s : State) (now : Time) (ad : Option Float32Array) :
    ∃ l, (playAudio s now ad).state.started = s.started ++ l := by
  cases ad with
  | none => exact ⟨[], by simp [playAudio]⟩
  | some a =>
    by_cases hlen : a.length = 0
    · exact ⟨[], by simp [playAudio, hlen]⟩
    · exact ⟨[{ startTime := startTimeOf s now, audioData := a }], by simp [playAudio, hlen]⟩

@[simp] theorem playAll_nil (s : State) : playAll s [] = s := by
  simp only [playAll, List.foldl_nil]

@[simp] theorem playAll_cons (s : State) (c : Chunk) (cs : List Chunk) :
    playAll s (c :: cs) = playAll (playAudio s c.now (some c.audioData)).state cs := by
  simp only [playAll, List.foldl_cons]

theorem playAll_started_extends (s : State) (chunks : List Chunk) :
    ∃ l, (playAll s chunks).started = s.started ++ l := by
  induction chunks generalizing s with
  | nil => exact ⟨[], by simp⟩
  | cons c cs ih =>
    obtain ⟨l1, h1⟩ := playAudio_started_extends s c.now (some c.audioData)
    obtain ⟨l2, h2⟩ := ih (playAudio s c.now (some c.audioData)).state
    exact ⟨l1 ++ l2, by rw [playAll_cons, h2, h1, List.append_assoc]⟩

/-- With non-empty chunks, the `source.start` call number `i` of a run belongs
to chunk number `i`, and its start time is computed from the state left by the
chunks before it. -/
theorem playAll_started_get (s0 : State) (chunks : List Chunk)
    (hne : ∀ c ∈ chunks, c.audioData ≠ []) (i : Nat) (c : Chunk)
    (hc : chunks[i]? = some c) :
    (playAll s0 chunks).started[s0.started.length + i]?
      = some { startTime := startTimeOf (playAll s0 (chunks.take i)) c.now,
               audioData := c.audioData } := by
  induction chunks generalizing s0 i c with
  | nil => simp at hc
  | cons d ds ih =>
    have hd : d.audioData ≠ [] := hne d (List.mem_cons_self _ _)
    have hds : ∀ c ∈ ds, c.audioData ≠ [] := fun c hmem => hne c (List.mem_cons_of_mem _ hmem)
    cases i with
    | zero =>
      simp at hc
      subst hc
      obtain ⟨l, hl⟩ := playAll_started_extends (playAudio s0 d.now (some d.audioData)).state ds
      rw [playAll_cons, hl, playAudio_started s0 d.now d.audioData hd, List.append_assoc,
        Nat.add_zero, List.getElem?_append_right (le_refl _)]
      simp
    | succ j =>
      simp at hc
      have h := ih (playAudio s0 d.now (some d.audioData)).state hds j c hc
      rw [playAudio_started s0 d.now d.audioData hd] at h
      simp at h
      simp [← h]
      congr 1
      omega

/-- When every clock reading is at most the current `scheduledEnd`, the
timeline advances by exactly the sum of the buffer durations. -/
theorem playAll_scheduledEnd_sum (s0 : State) (chunks : List Chunk)
    (hne : ∀ c ∈ chunks, c.audioData ≠ [])
    (hclock : ∀ i c, chunks[i]? = some c →
      c.now ≤ toNumber (playAll s0 (chunks.take i)).scheduledEndRef) :
    toNumber (playAll s0 chunks).scheduledEndRef
      = toNumber s0.scheduledEndRef + (chunks.map (fun c => bufferDuration c.audioData)).sum := by
  induction chunks generalizing s0 with
  | nil => simp
  | cons d ds ih =>
    have hd : d.audioData ≠ [] := hne d (List.mem_cons_self _ _)
    have hds : ∀ c ∈ ds, c.audioData ≠ [] := fun c hmem => hne c (List.mem_cons_of_mem _ hmem)
    have h0 : d.now ≤ toNumber s0.scheduledEndRef := by
      have := hclock 0 d (by simp)
      simpa using this
    have hrest : ∀ i c, ds[i]? = some c →
        c.now ≤ toNumber (playAll (playAudio s0 d.now (some d.audioData)).state
          (ds.take i)).scheduledEndRef := by
      intro i c hc
      have := hclock (i + 1) c (by simpa using hc)
      simpa using this
    rw [playAll_cons, ih _ hds hrest, playAudio_scheduledEnd s0 d.now d.audioData hd]
    simp only [toNumber_some, startTimeOf, max_eq_left h0, add_assoc, List.map_cons,
      List.sum_cons]

/-! ## Lemmas on the sample data -/

theorem length_silence (n : Nat) : (silence n).length = n := List.length_replicate n 0

theorem silence_ne_nil (n : Nat) (h : 0 < n) : silence n ≠ [] := by
  intro h0
  have hlen := congrArg List.length h0
  rw [length_silence, List.length_nil] at hlen
  omega

theorem bufferDuration_silence (n : Nat) : bufferDuration (silence n) = (n : ℚ≥0) / 48000 := by
  simp only [bufferDuration, length_silence, sampleRate]
  norm_num

theorem scenarioChunks_ne : ∀ c ∈ scenarioChunks, c.audioData ≠ [] := by
  intro c hc
  simp only [scenarioChunks, List.mem_cons, List.mem_singleton, List.not_mem_nil, or_false] at hc
  rcases hc with rfl | rfl
  · exact silence_ne_nil _ (by decide)
  · exact silence_ne_nil _ (by decide)

theorem scenarioChunks_clock : ∀ i c, scenarioChunks[i]? = some c →
    c.now ≤ toNumber (playAll State.initial (scenarioChunks.take i)).scheduledEndRef := by
  intro i c hc
  rcases i with _ | _ | i
  · simp only [scenarioChunks, List.getElem?_cons_zero, Option.some.injEq] at hc
    subst hc
    simp [State.initial]
  · simp only [scenarioChunks, List.getElem?_cons_succ, List.getElem?_cons_zero,
      Option.some.injEq] at hc
    subst hc
    simp only [scenarioChunks, List.take_succ_cons, List.take_zero, playAll_cons, playAll_nil]
    rw [playAudio_scheduledEnd _ _ _ (silence_ne_nil _ (by decide)),
      bufferDuration_silence, toNumber_some, ← NNRat.coe_le_coe]
    push_cast
    have h0 : (0 : ℚ) ≤ ((startTimeOf State.initial 0 : ℚ≥0) : ℚ) := NNRat.coe_nonneg _
    norm_num
    linarith
  · simp only [scenarioChunks, List.getElem?_cons_succ, List.getElem?_nil] at hc
    exact absurd hc (by simp)

theorem scenarioChunks_total :
    (scenarioChunks.map (fun c => bufferDuration c.audioData)).sum = 4 / 5 := by
  simp only [scenarioChunks, List.map_cons, List.map_nil, List.sum_cons, List.sum_nil,
    bufferDuration_silence, ← NNRat.coe_inj]
  push_cast
  norm_num

/-! ## Playback timeline -/

/-- C1 (no overlap): when non-empty chunks are passed to `playAudio` in order,
under any audio clock readings, the start time of chunk number `i` is at least
the value of `scheduledEnd` left by the chunks before it (read through
`toNumber`, so the initial `null` counts as 0). -/
theorem no_overlap (s0 : State) (chunks : List Chunk)
    (hne : ∀ c ∈ chunks, c.audioData ≠ []) (i : Nat) (hi : i < chunks.length) :
    ∃ e, (playAll s0 chunks).started[s0.started.length + i]? = some e
      ∧ toNumber (playAll s0 (chunks.take i)).scheduledEndRef ≤ e.startTime := by
  have hc : chunks[i]? = some chunks[i] := List.getElem?_eq_getElem hi
  exact ⟨_, playAll_started_get s0 chunks hne i _ hc, le_max_left _ _⟩

/-- The theorem `no_overlap` at the second chunk of `scenarioChunks`. -/
theorem no_overlap_witness :
    (∀ c ∈ scenarioChunks, c.audioData ≠ []) ∧ 1 < scenarioChunks.length ∧
    ∃ e, (playAll State.initial scenarioChunks).started[State.initial.started.length + 1]?
        = some e
      ∧ toNumber (playAll State.initial (scenarioChunks.take 1)).scheduledEndRef ≤ e.startTime :=
  ⟨scenarioChunks_ne, by decide,
   no_overlap State.initial scenarioChunks scenarioChunks_ne 1 (by decide)⟩

/-- C3 (catch-up safety): a `playAudio` call on a non-empty chunk returns
normally and issues one `source.start` whose start time is
`max(scheduledEnd, now)`; when `scheduledEnd` is below the clock reading the
start time is that reading, and it is never below the reading. -/
theorem catch_up (s : State) (now : Time) (a : Float32Array) (h : a ≠ []) :
    (playAudio s now (some a)).threw = none
      ∧ ∃ e, (playAudio s now (some a)).state.started = s.started ++ [e]
        ∧ e.startTime = max (toNumber s.scheduledEndRef) now
        ∧ (toNumber s.scheduledEndRef < now → e.startTime = now)
        ∧ now ≤ e.startTime :=
  ⟨playAudio_threw s now a h, _, playAudio_started s now a h, rfl,
    fun hlt => max_eq_right (le_of_lt hlt), le_max_right _ _⟩

/-- The theorem `catch_up` on a two-sample chunk played at clock reading 3 on
the initial state. -/
theorem catch_up_witness :
    ([0, 0] : Float32Array) ≠ []
    ∧ (playAudio State.initial 3 (some [0, 0])).threw = none
    ∧ ∃ e, (playAudio State.initial 3 (some [0, 0])).state.started
          = State.initial.started ++ [e]
      ∧ e.startTime = max (toNumber State.initial.scheduledEndRef) 3
      ∧ (toNumber State.initial.scheduledEndRef < 3 → e.startTime = 3)
      ∧ 3 ≤ e.startTime :=
  ⟨by simp, catch_up State.initial 3 [0, 0] (by simp)⟩

/-! ## Lemmas on the handler -/

theorem playAudio_text (s : State) (now : Time) (ad : Option Float32Array) :
    (playAudio s now ad).state.text = s.text
      ∧ (playAudio s now ad).state.textUpdates = s.textUpdates
      ∧ (playAudio s now ad).state.decodeCalls = s.decodeCalls
      ∧ (playAudio s now ad).state.decoderRef = s.decoderRef := by
  cases ad with
  | none => simp [playAudio]
  | some a => by_cases hlen : a.length = 0 <;> simp [playAudio, hlen]

theorem afterDecode_text (s : State) (now : Time) (result : Except JsError DecodeResult) :
    (afterDecode s now result).state.text = s.text
      ∧ (afterDecode s now result).state.textUpdates = s.textUpdates
      ∧ (afterDecode s now result).state.decodeCalls = s.decodeCalls
      ∧ (afterDecode s now result).state.decoderRef = s.decoderRef := by
  cases result with
  | error e => simp [afterDecode]
  | ok r =>
    by_cases hpos : r.samplesDecoded > 0
    · simpa [afterDecode, hpos] using playAudio_text s now r.channelData.head?
    · simp [afterDecode, hpos]

theorem onmessage_text_tag (p : Platform) (s : State) (now : Time) (data : Bytes)
    (htag : data.head? = some 2) :
    onmessage p s now data
      = { state := { s with text := s.text ++ p.textDecode (data.drop 1),
                            textUpdates := s.textUpdates ++ [p.textDecode (data.drop 1)] },
          threw := none } := by
  simp [onmessage, afterRead, htag]

theorem onmessage_other_tag (p : Platform) (s : State) (now : Time) (data : Bytes)
    (h1 : data.head? ≠ some 1) (h2 : data.head? ≠ some 2) :
    onmessage p s now data = { state := s, threw := none } := by
  simp [onmessage, afterRead, h1, h2]

theorem onmessage_decoder_null (p : Platform) (s : State) (now : Time) (data : Bytes)
    (htag : data.head? = some 1) (hnull : s.decoderRef = none) :
    onmessage p s now data = { state := s, threw := some .typeError } := by
  simp [onmessage, afterRead, htag, hnull]

theorem onmessage_audio_tag (p : Platform) (s : State) (now : Time) (data : Bytes)
    (decoder : Decoder) (htag : data.head? = some 1) (hdec : s.decoderRef = some decoder) :
    onmessage p s now data
      = afterDecode { s with decodeCalls := s.decodeCalls ++ [data.drop 1] } now
          (decoder s.decodeCalls (data.drop 1)) := by
  simp [onmessage, afterRead, htag, hdec]

@[simp] theorem runMessages_nil (p : Platform) (s : State) : runMessages p s [] = s := by
  simp only [runMessages, List.foldl_nil]

@[simp] theorem runMessages_cons (p : Platform) (s : State) (m : Inbound) (ms : List Inbound) :
    runMessages p s (m :: ms) = runMessages p (onmessage p s m.now m.data).state ms := by
  simp only [runMessages, List.foldl_cons]

theorem join_cons (x : String) (xs : List String) :
    String.join (x :: xs) = x ++ String.join xs := by
  apply String.ext
  simp [String.join_eq]

/-! ## Frame dispatch -/

/-- C4 (zero-sample no-op): when an audio message (tag 1) decodes to a result
with `samplesDecoded = 0`, the handler finishes without throwing, and the only
thing it changed is the log of `decode` calls: `playAudio` is not called,
nothing is started, `scheduledEnd` and the transcript are as before. -/
theorem zero_sample_noop (p : Platform) (s : State) (now : Time) (data : Bytes)
    (decoder : Decoder) (r : DecodeResult)
    (htag : data.head? = some 1) (hdec : s.decoderRef = some decoder)
    (hres : decoder s.decodeCalls (data.drop 1) = .ok r) (hzero : r.samplesDecoded = 0) :
    (onmessage p s now data).state = { s with decodeCalls := s.decodeCalls ++ [data.drop 1] }
      ∧ (onmessage p s now data).threw = none
      ∧ (onmessage p s now data).state.playAudioCalls = s.playAudioCalls
      ∧ (onmessage p s now data).state.started = s.started
      ∧ (onmessage p s now data).state.scheduledEndRef = s.scheduledEndRef
      ∧ (onmessage p s now data).state.text = s.text := by
  rw [onmessage_audio_tag p s now data decoder htag hdec, hres]
  simp [afterDecode, hzero]

/-- The theorem `zero_sample_noop` on the message `[1]`, whose empty payload
the stand-in decoder turns into zero samples. -/
theorem zero_sample_noop_witness :
    ([1] : Bytes).head? = some 1
      ∧ readyState.decoderRef = some byteDecoder
      ∧ byteDecoder readyState.decodeCalls (([1] : Bytes).drop 1)
          = .ok { channelData := [[]], samplesDecoded := 0 }
      ∧ (onmessage browser readyState 0 [1]).state
          = { readyState with decodeCalls := readyState.decodeCalls ++ [([1] : Bytes).drop 1] }
      ∧ (onmessage browser readyState 0 [1]).threw = none
      ∧ (onmessage browser readyState 0 [1]).state.playAudioCalls = readyState.playAudioCalls
      ∧ (onmessage browser readyState 0 [1]).state.started = readyState.started
      ∧ (onmessage browser readyState 0 [1]).state.scheduledEndRef = readyState.scheduledEndRef
      ∧ (onmessage browser readyState 0 [1]).state.text = readyState.text :=
  ⟨rfl, rfl, rfl,
   zero_sample_noop browser readyState 0 [1] byteDecoder
     { channelData := [[]], samplesDecoded := 0 } rfl rfl rfl rfl⟩

/-- C5 (tag dispatch): handling a message whose first byte is 1 leaves the
transcript as it was and makes no `setText` call; handling a message whose
first byte is 2 makes no `decode` call and leaves `scheduledEnd` as it was. -/
theorem tag_dispatch (p : Platform) (s : State) (now : Time) (data : Bytes) :
    (data.head? = some 1 →
      (onmessage p s now data).state.text = s.text
        ∧ (onmessage p s now data).state.textUpdates = s.textUpdates)
    ∧ (data.head? = some 2 →
      (onmessage p s now data).state.decodeCalls = s.decodeCalls
        ∧ (onmessage p s now data).state.scheduledEndRef = s.scheduledEndRef
        ∧ (onmessage p s now data).state.playAudioCalls = s.playAudioCalls
        ∧ (onmessage p s now data).state.started = s.started) := by
  constructor
  · intro htag
    cases hdec : s.decoderRef with
    | none => simp [onmessage_decoder_null p s now data htag hdec]
    | some decoder =>
      rw [onmessage_audio_tag p s now data decoder htag hdec]
      have h := afterDecode_text { s with decodeCalls := s.decodeCalls ++ [data.drop 1] } now
        (decoder s.decodeCalls (data.drop 1))
      exact ⟨h.1, h.2.1⟩
  · intro htag
    simp [onmessage_text_tag p s now data htag]

/-- The theorem `tag_dispatch` on the audio message `[1, 7]` and on the text
message `[2, 72]`. -/
theorem tag_dispatch_witness :
    ((onmessage browser readyState 0 [1, 7]).state.text = readyState.text
        ∧ (onmessage browser readyState 0 [1, 7]).state.textUpdates = readyState.textUpdates)
    ∧ ((onmessage browser readyState 0 [2, 72]).state.decodeCalls = readyState.decodeCalls
        ∧ (onmessage browser readyState 0 [2, 72]).state.scheduledEndRef = readyState.scheduledEndRef
        ∧ (onmessage browser readyState 0 [2, 72]).state.playAudioCalls
            = readyState.playAudioCalls
        ∧ (onmessage browser readyState 0 [2, 72]).state.started = readyState.started) :=
  ⟨(tag_dispatch browser readyState 0 [1, 7]).1 rfl,
   (tag_dispatch browser readyState 0 [2, 72]).2 rfl⟩

/-- C6 (malformed resilience): on an empty message, or one whose first byte is
neither 1 nor 2, the handler finishes without throwing and leaves the whole
state as it was: no `decode` call, `scheduledEnd` and the transcript unchanged. -/
theorem malformed_resilience (p : Platform) (s : State) (now : Time) (data : Bytes)
    (h : data = [] ∨ ∃ t rest, data = t :: rest ∧ t ≠ 1 ∧ t ≠ 2) :
    (onmessage p s now data).threw = none
      ∧ (onmessage p s now data).state = s
      ∧ (onmessage p s now data).state.decodeCalls = s.decodeCalls
      ∧ (onmessage p s now data).state.scheduledEndRef = s.scheduledEndRef
      ∧ (onmessage p s now data).state.text = s.text := by
  have h12 : data.head? ≠ some 1 ∧ data.head? ≠ some 2 := by
    rcases h with rfl | ⟨t, rest, rfl, ht1, ht2⟩
    · simp
    · simp [ht1, ht2]
  simp [onmessage_other_tag p s now data h12.1 h12.2]

/-- The theorem `malformed_resilience` on the message `[3, 9]`. -/
theorem malformed_resilience_witness :
    ((([3, 9] : Bytes) = []) ∨ ∃ t rest, ([3, 9] : Bytes) = t :: rest ∧ t ≠ 1 ∧ t ≠ 2)
      ∧ (onmessage browser readyState 0 [3, 9]).threw = none
      ∧ (onmessage browser readyState 0 [3, 9]).state = readyState
      ∧ (onmessage browser readyState 0 [3, 9]).state.decodeCalls = readyState.decodeCalls
      ∧ (onmessage browser readyState 0 [3, 9]).state.scheduledEndRef = readyState.scheduledEndRef
      ∧ (onmessage browser readyState 0 [3, 9]).state.text = readyState.text :=
  ⟨Or.inr ⟨3, [9], rfl, by decide, by decide⟩,
   malformed_resilience browser readyState 0 [3, 9]
     (Or.inr ⟨3, [9], rfl, by decide, by decide⟩)⟩

/-- C8 (outbound drop when not open): a frame emitted by the recorder is passed
to `send` exactly when the socket exists and its `readyState` is `OPEN`; in
every other case (no socket, `CONNECTING`, `CLOSING`, `CLOSED`) no `send` call
is made; and the callback never throws. -/
theorem outbound_drop (socketRef : Option WebSocket) (data : Bytes) :
    ((ondataavailable socketRef data).sendCalls = [data]
        ↔ ∃ ws, socketRef = some ws ∧ ws.readyState = .OPEN)
      ∧ ((¬ ∃ ws, socketRef = some ws ∧ ws.readyState = .OPEN) →
          (ondataavailable socketRef data).sendCalls = [])
      ∧ (ondataavailable socketRef data).threw = none := by
  cases socketRef with
  | none => simp [ondataavailable]
  | some ws =>
    by_cases hopen : ws.readyState = .OPEN
    · simp [ondataavailable, hopen, WebSocket.send]
    · simp [ondataavailable, hopen]

/-- The theorem `outbound_drop` on a frame emitted while the socket is
`CONNECTING`, and on one emitted while it is `OPEN`. -/
theorem outbound_drop_witness :
    (ondataavailable (some { readyState := .CONNECTING }) [5, 6]).sendCalls = []
      ∧ (ondataavailable (some { readyState := .CONNECTING }) [5, 6]).threw = none
      ∧ (ondataavailable (some { readyState := .OPEN }) [5, 6]).sendCalls = [[5, 6]] :=
  ⟨(outbound_drop (some { readyState := .CONNECTING }) [5, 6]).2.1 (by simp),
   (outbound_drop (some { readyState := .CONNECTING }) [5, 6]).2.2,
   (outbound_drop (some { readyState := .OPEN }) [5, 6]).1.mpr ⟨_, rfl, rfl⟩⟩

/-! ## Decoder not yet initialised -/

theorem run_nil (p : Platform) (sys : System) : run p sys [] = sys := by
  simp only [run, List.foldl_nil]

theorem run_cons (p : Platform) (sys : System) (e : Event) (es : List Event) :
    run p sys (e :: es) = run p (step p sys e) es := by
  simp only [run, List.foldl_cons]

/-- One message dispatched and resumed twice in a row has the effect of the
handler run from start to finish. -/
theorem run_one_serial (p : Platform) (sys : System) (m : Inbound) :
    run p sys [.message m.data, .resume sys.handlers.length m.now,
        .resume sys.handlers.length m.now]
      = { state := (onmessage p sys.state m.now m.data).state,
          handlers := sys.handlers ++ [none],
          rejections := sys.rejections ++ (onmessage p sys.state m.now m.data).threw.toList } := by
  simp only [run_cons, run_nil]
  cases hread : afterRead p sys.state m.data with
  | done o => simp [step, onmessage, hread]
  | awaitDecode s1 result => simp [step, onmessage, hread]

theorem run_serialSchedule (p : Platform) (sys : System) (msgs : List Inbound) :
    (run p sys (serialSchedule sys.handlers.length msgs)).state
      = runMessages p sys.state msgs := by
  induction msgs generalizing sys with
  | nil => simp [serialSchedule, run_nil]
  | cons m ms ih =>
    have h3 := run_one_serial p sys m
    simp only [run_cons, run_nil] at h3
    simp only [serialSchedule, run_cons, runMessages_cons]
    rw [h3]
    have := ih { state := (onmessage p sys.state m.now m.data).state,
                 handlers := sys.handlers ++ [none],
                 rejections := sys.rejections
                   ++ (onmessage p sys.state m.now m.data).threw.toList }
    simpa using this

end VoiceAssistant
